import Mathlib

/-!
Shallow embedding of the load pipeline of the gop repository (file `load.go`,
package `gop`): error-position dispatch (`ErrorPos`), notated-error
classification (`isNotatedErr`) and reconciliation (`ignNotatedErrs`),
dependency-flag aggregation (`checkGopDeps`), the post-load hook
(`afterLoad`), and the two entry points `LoadDir` and `LoadFiles`.

External collaborators (the parser, the compiler backend `cl.NewPackage`,
the position table produced by the parser, and the module descriptor) are
modelled as explicit inputs: the parse result is passed in as data, the
compiler backend is an oracle function, and the side effects of the hook
(writing the `Config.GopDeps` output slot and calling
`Module.SaveWithGopMod`) are returned as an explicit effects record.
-/

namespace GopSpec

/-! ## Go string primitives (byte-level, modelled over `List Char`)

Go's `strings.Index`, `strings.Contains` and `strings.HasSuffix` operate on
bytes; source text (`ast.File.Code`) is modelled as a `List Char`.
-/

/-- Go `strings.Index(s, pat)` starting the scan at index `i`. -/
def strIndexFrom (pat : List Char) : List Char → Nat → Option Nat
  | [], i => if pat.isPrefixOf ([] : List Char) then some i else none
  | c :: rest, i =>
    if pat.isPrefixOf (c :: rest) then some i else strIndexFrom pat rest (i + 1)

/-- Go `strings.Index(s, pat)`: first index at which `pat` occurs in `s`,
`none` when it does not occur. -/
def strIndex (s pat : List Char) : Option Nat :=
  strIndexFrom pat s 0

/-- Go `strings.Contains(s, pat)`. -/
def strContains (s pat : List Char) : Bool :=
  (strIndex s pat).isSome

/-- Go `strings.HasSuffix(s, suffix)`, at the byte level. -/
def hasSuffix (s suffix : String) : Bool :=
  suffix.data.isSuffixOf s.data

/-! ## Position table (`go/token`: `token.File`, `token.FileSet`) -/

/-- A file registered in the position table: its registered name, its base
offset in the global position space, its size in bytes, and its table of
line-start offsets (`token.Lines(f)`). -/
structure PosFile where
  name : String
  base : Nat
  size : Nat
  lines : List Nat
deriving DecidableEq

/-- The shared position table (`token.FileSet`): the files registered in it.
Positions are `Nat`, with `0` playing the role of `token.NoPos`. -/
structure FileSet where
  files : List PosFile
deriving DecidableEq

/-- Go `(*token.FileSet).File(p)`: the registered file whose position range
`[base, base+size]` contains `p`, or `none`; `token.NoPos` (0) never
resolves. -/
def FileSet.file (fset : FileSet) (pos : Nat) : Option PosFile :=
  if pos = 0 then none
  else fset.files.find? (fun f => decide (f.base ≤ pos) && decide (pos ≤ f.base + f.size))

/-- Go `searchInts(lines, offset)` as used by `(*token.File).Line`: the
index of the last line-start offset that is at most `offset` (0-based line
index), assuming a sorted table whose first entry is at most `offset`. -/
def lineIdx : List Nat → Nat → Nat
  | [], _ => 0
  | [_], _ => 0
  | _ :: b :: rest, off => if off < b then 0 else lineIdx (b :: rest) off + 1

/-! ## Errors (`qiniu/x/errors`, `gox` error kinds) -/

/-- The closed set of error shapes this layer handles: the three `gox`
error kinds that carry a position (`*gox.CodeError`, `*gox.MatchError`,
`*gox.ImportError`), the sentinels of `load.go`, an `errors.List`, a
frame produced by `errors.NewWith` wrapping a cause, and a positionless
catch-all. -/
inductive GoErr where
  | codeError (pos : Nat)
  | matchError (pos : Nat)
  | importError (pos : Nat)
  | notFound
  | ignoreNotated
  | multiPackages
  | multiTestPackages
  | list (es : List GoErr)
  | wrapped (e : GoErr)
  | other (tag : Nat)

/-- Go `errors.Err(err)`: the innermost cause of a chain of
`errors.NewWith` frames. -/
def errCause : GoErr → GoErr
  | .wrapped e => errCause e
  | e => e

/-- Go `gop.ErrorPos(err)`: the position carried by the error, dispatching
on the error kind; every other kind yields `token.NoPos` (0). -/
def ErrorPos : GoErr → Nat
  | .codeError pos => pos
  | .matchError pos => pos
  | .importError pos => pos
  | _ => 0

/-! ## AST and compiled packages -/

/-- A parsed source file (`*ast.File`): its raw source text
(`ast.File.Code`, a byte slice). -/
structure AstFile where
  code : List Char
deriving DecidableEq

/-- A parsed package (`*ast.Package`): its `Files` map from registered file
name to parsed file, modelled as an association list. -/
structure AstPackage where
  files : List (String × AstFile)
deriving DecidableEq

/-- A compiled package (`*gox.Package`), opaque except for the one
operation the pipeline uses: `ForEachFile`, each file reporting its
dependency-usage flags via `CheckGopDeps`. Modelled as the list of
(file name, flags) pairs that `ForEachFile` visits. -/
structure GoxPackage where
  files : List (String × Nat)
deriving DecidableEq

/-- Go `checkGopDeps(pkg)`: bitwise-OR of `file.CheckGopDeps(pkg)` over all
files of the compiled package. -/
def checkGopDeps (pkg : GoxPackage) : Nat :=
  pkg.files.foldl (fun flags f => flags ||| f.2) 0

/-! ## Configuration and module descriptor -/

/-- The caller-supplied `gop.Config`, restricted to the fields the claims
are about. The output slot `GopDeps *int` is modelled by `gopDeps : Bool`
(whether the caller supplied the slot); the value written to it is reported
in `AfterLoadEffects`. The fields `Gop`, `Fset`, `Mod`, `Importer` and
`Filter` are resolved before the modelled fragment starts and are passed
to the functions below explicitly. -/
structure Config where
  gopDeps : Bool
  ignoreNotatedError : Bool
  dontUpdateGoMod : Bool
deriving DecidableEq

/-- The resolved module descriptor (`*gopmod.Module`), restricted to the
operations `afterLoad` uses: `Path()` and `HasModfile()`.
`SaveWithGopMod` is modelled by the `saveErr` oracle argument of
`afterLoad` together with the `savedFlags` effect field. -/
structure Module where
  path : String
  hasModfile : Bool
deriving DecidableEq

/-- Modelled from the spec: the constant `gopMod` is defined elsewhere in
the repository (outside `load.go`); it is the module path of the
toolchain's own self-hosted project, compared against `mod.Path()` in
`afterLoad`. Its exact value is irrelevant to the claims; only the
comparison matters. -/
def gopMod : String := "github.com/goplus/gop"

/-! ## Notated-error classification (`isNotatedErr`, `ignNotatedErrs`) -/

/-- The line-comment marker scanned for by `isNotatedErr`. -/
def slashSlash : List Char := "//".toList

/-- The literal marker text that declares a compile failure as expected. -/
def compileErrorMarker : List Char := "compile error:".toList

/-- The byte range of the physical source line containing `pos` in file
`f`: from that line's start offset to the next line's start offset, or to
`f.Size()` for the last line. Mirrors the `lines`/`start`/`end`
computation in `isNotatedErr`. -/
def lineRange (f : PosFile) (pos : Nat) : Nat × Nat :=
  let i := lineIdx f.lines (pos - f.base)
  let start := f.lines.getD i 0
  let stop := if i + 1 < f.lines.length then f.lines.getD (i + 1) 0 else f.size
  (start, stop)

/-- The slice `gopf.Code[start:end]` of the raw source text for the
physical line containing `pos`. -/
def lineSlice (f : PosFile) (gopf : AstFile) (pos : Nat) : List Char :=
  let r := lineRange f pos
  (gopf.code.drop r.1).take (r.2 - r.1)

/-- Go `isNotatedErr(err, pkg, fset)`: resolve the error's position to a
registered file, look the file up in the package's `Files` map, slice the
physical line containing the position, find the first line-comment marker
in it, and test the text after that marker for the literal
`compile error:`; any failed step classifies the error as not notated. -/
def isNotatedErr (err : GoErr) (pkg : AstPackage) (fset : FileSet) : Bool :=
  match fset.file (ErrorPos err) with
  | none => false
  | some f =>
    match pkg.files.lookup f.name with
    | none => false
    | some gopf =>
      let text := lineSlice f gopf (ErrorPos err)
      match strIndex text slashSlash with
      | none => false
      | some commentOff => strContains (text.drop (commentOff + 2)) compileErrorMarker

/-- Go `ignNotatedErrs(err, pkg, fset)`: for an `errors.List`, keep the
elements that are not notated, returning the sentinel `ErrIgnoreNotated`
when none remain; for any other error, return the sentinel when it is
notated and the error unchanged otherwise. -/
def ignNotatedErrs (err : GoErr) (pkg : AstPackage) (fset : FileSet) : GoErr :=
  match err with
  | .list es =>
    let ret := es.filter (fun e => !(isNotatedErr e pkg fset))
    if ret.length = 0 then .ignoreNotated else .list ret
  | e => if isNotatedErr e pkg fset then .ignoreNotated else e

/-! ## Post-load hook (`afterLoad`) -/

/-- The observable side effects of `afterLoad`: the value written to the
caller's `Config.GopDeps` output slot (when written), and the flag bitmask
passed to `Module.SaveWithGopMod` (when the manifest write happens).
These are the hook's only effects. -/
structure AfterLoadEffects where
  gopDepsOut : Option Nat
  savedFlags : Option Nat
deriving DecidableEq

/-- Go `afterLoad(mod, gop, out, test, conf)`. `saveErr` is the result
that `mod.SaveWithGopMod(gop, flags)` would return when invoked; the Go
statement discards that result, so the parameter is never consulted.
Returns the effects record instead of mutating state. -/
def afterLoad (mod : Module) (out : GoxPackage) (test : Option GoxPackage)
    (conf : Config) (_saveErr : Option GoErr) : AfterLoadEffects :=
  if mod.path = gopMod then ⟨none, none⟩
  else
    let updateMod := !conf.dontUpdateGoMod && mod.hasModfile
    if updateMod || conf.gopDeps then
      let flags := checkGopDeps out
      let gopDepsOut := if conf.gopDeps then some flags else none
      if updateMod then
        let flags' := match test with
          | some t => flags ||| checkGopDeps t
          | none => flags
        if flags' ≠ 0 then ⟨gopDepsOut, some flags'⟩ else ⟨gopDepsOut, none⟩
      else ⟨gopDepsOut, none⟩
    else ⟨none, none⟩

/-! ## `LoadDir`

The modelled fragment starts where `LoadDir` has resolved `mod`, `fset`,
`gop` and the importer and has called `parser.ParseDirEx`: `parseRes` is
that parse result (the association list models the Go map
`map[string]*ast.Package`; its order models Go's nondeterministic map
iteration order), and `compile` is the compiler-backend oracle
`cl.NewPackage("", pkg, clConf)` with the shared configuration already
applied. The `promptGenGo` progress print is I/O and is not modelled.
-/

/-- Outcome of the package-partitioning loop of `LoadDir`: either an early
`return` from inside the loop (`ErrMultiTestPackges`, `ErrMultiPackges`,
or a production compile error, in all of which the returned packages are
nil), or normal loop completion with the compiled production package (if
any) and the discovered test AST package (if any). -/
inductive LoopResult where
  | early (err : GoErr)
  | done (out : Option GoxPackage) (pkgTest : Option AstPackage)

/-- The `for name, pkg := range pkgs` loop of `LoadDir`, carrying the
`out` and `pkgTest` accumulators. A name ending in `_test` is recorded as
the test package (a second one is `ErrMultiTestPackges`); otherwise, if a
production package was already compiled the loop returns
`ErrMultiPackges`; a production package with no files is skipped; else the
package is compiled, a compile error being reconciled by `ignNotatedErrs`
when `Config.IgnoreNotatedError` is set and then returned. -/
def loadDirLoop (compile : AstPackage → Except GoErr GoxPackage)
    (fset : FileSet) (conf : Config) :
    List (String × AstPackage) → Option GoxPackage → Option AstPackage → LoopResult
  | [], out, pkgTest => .done out pkgTest
  | (name, pkg) :: rest, out, pkgTest =>
    if hasSuffix name "_test" then
      if pkgTest.isSome then .early .multiTestPackages
      else loadDirLoop compile fset conf rest out (some pkg)
    else if out.isSome then .early .multiPackages
    else if pkg.files.length = 0 then loadDirLoop compile fset conf rest out pkgTest
    else
      match compile pkg with
      | .ok o => loadDirLoop compile fset conf rest (some o) pkgTest
      | .error e =>
        .early (if conf.ignoreNotatedError then ignNotatedErrs e pkg fset else e)

/-- The result of `LoadDir`: the returned triple `(out, test, err)`, plus
`afterLoadEff`, which is `some` of the effects of `afterLoad` exactly when
the hook ran (it does not run on the early-return paths). -/
structure LoadDirResult where
  out : Option GoxPackage
  test : Option GoxPackage
  err : Option GoErr
  afterLoadEff : Option AfterLoadEffects

/-- The body of `gop.LoadDir` after a successful parse (factored out of
`LoadDir` so the successful-parse path has its own equations): an empty
parse result is `ErrNotFound`; then the partitioning loop runs; a loop
completion without a compiled production package is `ErrNotFound`;
otherwise, when `genTestPkg` is set and a test package was discovered it
is compiled (its error, if any, is returned untouched while `test` stays
nil), and `afterLoad` runs before returning. -/
def loadDirPkgs (pkgs : List (String × AstPackage))
    (compile : AstPackage → Except GoErr GoxPackage)
    (mod : Module) (fset : FileSet) (conf : Config) (genTestPkg : Bool)
    (saveErr : Option GoErr) : LoadDirResult :=
  if pkgs.length = 0 then ⟨none, none, some .notFound, none⟩
  else
    match loadDirLoop compile fset conf pkgs none none with
    | .early e => ⟨none, none, some e, none⟩
    | .done none _ => ⟨none, none, some .notFound, none⟩
    | .done (some outPkg) pkgTest =>
      let testAndErr : Option GoxPackage × Option GoErr :=
        if genTestPkg then
          match pkgTest with
          | some pt =>
            match compile pt with
            | .ok t => (some t, none)
            | .error e => (none, some e)
          | none => (none, none)
        else (none, none)
      let eff := afterLoad mod outPkg testAndErr.1 conf saveErr
      ⟨some outPkg, testAndErr.1, testAndErr.2, some eff⟩

/-- Go `gop.LoadDir` from the parse call onward: a parse error is returned
as is; a successful parse continues with `loadDirPkgs`. -/
def LoadDir (parseRes : Except GoErr (List (String × AstPackage)))
    (compile : AstPackage → Except GoErr GoxPackage)
    (mod : Module) (fset : FileSet) (conf : Config) (genTestPkg : Bool)
    (saveErr : Option GoErr) : LoadDirResult :=
  match parseRes with
  | .error e => ⟨none, none, some e, none⟩
  | .ok pkgs => loadDirPkgs pkgs compile mod fset conf genTestPkg saveErr

/-! ## `LoadFiles` -/

/-- The result of `LoadFiles`: the returned pair `(out, err)`, plus
`afterLoadCall`, which is `some` of the `out` argument handed to
`afterLoad` exactly when the hook was invoked (in `LoadFiles` the hook
runs even when compilation failed and `out` is nil). -/
structure LoadFilesResult where
  out : Option GoxPackage
  err : Option GoErr
  afterLoadCall : Option (Option GoxPackage)

/-- The body of `gop.LoadFiles` after a successful parse (factored out of
`LoadFiles`): a parse result with any number of packages other than one
is `ErrMultiPackges` (wrapped by `errors.NewWith`); otherwise the single
package is compiled, a compile error being reconciled by `ignNotatedErrs`
when `Config.IgnoreNotatedError` is set, and — unlike `LoadDir` —
`afterLoad` is invoked unconditionally, even on a compile error with a
nil `out`. -/
def loadFilesPkgs (pkgs : List (String × AstPackage))
    (compile : AstPackage → Except GoErr GoxPackage)
    (fset : FileSet) (conf : Config) : LoadFilesResult :=
  if pkgs.length ≠ 1 then ⟨none, some (.wrapped .multiPackages), none⟩
  else
    let outAndErr : Option GoxPackage × Option GoErr :=
      match pkgs with
      | [] => (none, none)
      | (_, pkg) :: _ =>
        match compile pkg with
        | .ok o => (some o, none)
        | .error e =>
          (none, some (if conf.ignoreNotatedError then ignNotatedErrs e pkg fset else e))
    ⟨outAndErr.1, outAndErr.2, some outAndErr.1⟩

/-- Go `gop.LoadFiles` from the parse call onward: a parse error is
wrapped (`errors.NewWith`) and returned; a successful parse continues
with `loadFilesPkgs`. -/
def LoadFiles (parseRes : Except GoErr (List (String × AstPackage)))
    (compile : AstPackage → Except GoErr GoxPackage)
    (fset : FileSet) (conf : Config) : LoadFilesResult :=
  match parseRes with
  | .error e => ⟨none, some (.wrapped e), none⟩
  | .ok pkgs => loadFilesPkgs pkgs compile fset conf

/-! ## Concrete instances used by witnesses and counterexamples

A small fixture: a production package of one file, a test package whose
single file carries a notated line (`// compile error:` in its trailing
comment), the position table registering the test file at base 1, and a
compiler oracle that accepts the production package and rejects everything
else with an error positioned on the notated line.
-/

/-- Source text of the notated test file: 25 bytes, one line. -/
def codeT : List Char := "x // compile error: boom\n".toList

/-- The parsed test package, a single file registered as `t_test.gop`. -/
def testAstW : AstPackage := ⟨[("t_test.gop", ⟨codeT⟩)]⟩

/-- The parsed production package, a single nonempty file. -/
def prodAstW : AstPackage := ⟨[("m.gop", ⟨"package main\n".toList⟩)]⟩

/-- A parsed production package with zero constituent files. -/
def emptyAstW : AstPackage := ⟨[]⟩

/-- The position table: `t_test.gop` occupies positions 1..26, one line. -/
def fsetW : FileSet := ⟨[⟨"t_test.gop", 1, 25, [0]⟩]⟩

/-- A compile error positioned at position 1, on the notated line of
`t_test.gop`. -/
def eN : GoErr := .codeError 1

/-- A compile error with no resolvable position (never notated). -/
def eP : GoErr := .other 0

/-- The compiled production package: one file with dependency flags 0b01. -/
def prodGoxW : GoxPackage := ⟨[("m.gop", 1)]⟩

/-- The compiled test package: one file with dependency flags 0b10. -/
def testGoxW : GoxPackage := ⟨[("t_test.gop", 2)]⟩

/-- A module descriptor with a manifest file, distinct from the
toolchain's own module path. -/
def modW : Module := ⟨"example.com/demo", true⟩

/-- A configuration supplying the `GopDeps` output slot. -/
def confGD : Config := ⟨true, false, false⟩

/-- A configuration with `IgnoreNotatedError` set. -/
def confC2 : Config := ⟨false, true, false⟩

/-- The all-defaults configuration. -/
def confPlain : Config := ⟨false, false, false⟩

/-- A compiler oracle: compiles the production fixture to `prodGoxW` and
fails on any other package with the notated error `eN`. -/
def compileW : AstPackage → Except GoErr GoxPackage :=
  fun p => if (p.files.lookup "m.gop").isSome then .ok prodGoxW else .error eN

/-- A compiler oracle that fails on every package with the positionless
error `eP`. -/
def compileFail : AstPackage → Except GoErr GoxPackage :=
  fun _ => .error eP

/-! ## Theorems -/

/-- C5: `ignNotatedErrs` maps an error list to the sublist of its
non-notated elements, returning the sentinel `ErrIgnoreNotated` (never
nil) when that sublist is empty; and maps a single (non-list) error to
`ErrIgnoreNotated` when it is notated and to the error itself, unchanged,
otherwise. -/
theorem ignNotatedErrs_spec (err : GoErr) (pkg : AstPackage) (fset : FileSet) :
    (∀ es, err = .list es →
      ignNotatedErrs err pkg fset =
        (if (es.filter fun e => !(isNotatedErr e pkg fset)).length = 0 then .ignoreNotated
         else .list (es.filter fun e => !(isNotatedErr e pkg fset))))
    ∧ ((∀ es, err ≠ .list es) →
      ignNotatedErrs err pkg fset =
        (if isNotatedErr err pkg fset then .ignoreNotated else err)) := by
  constructor
  · intro es hes
    subst hes
    rfl
  · intro hne
    cases err with
    | list es => exact absurd rfl (hne es)
    | codeError p => rfl
    | matchError p => rfl
    | importError p => rfl
    | notFound => rfl
    | ignoreNotated => rfl
    | multiPackages => rfl
    | multiTestPackages => rfl
    | wrapped e => rfl
    | other t => rfl

/-- C5 witness: on the fixture, the list of a notated and a plain error is
filtered down to the plain error alone, and a plain non-list error is
returned unchanged. -/
theorem ignNotatedErrs_spec_witness :
    ignNotatedErrs (.list [eN, eP]) testAstW fsetW = .list [eP]
    ∧ ignNotatedErrs eP testAstW fsetW = eP := by
  constructor
  · have h := (ignNotatedErrs_spec (.list [eN, eP]) testAstW fsetW).1 [eN, eP] rfl
    rw [h]
    rfl
  · have h := (ignNotatedErrs_spec eP testAstW fsetW).2 (fun es hes => nomatch hes)
    rw [h]
    rfl

/-- C6: `isNotatedErr` classifies an error as notated if and only if its
kind-specific position resolves to a file registered in the position
table, that file name maps to a parsed file of the given AST package, the
byte range of the position's physical line contains an occurrence of the
line-comment marker, and the text after the first such occurrence
contains the marker text `compile error:`; failure of any step yields
not-notated. -/
theorem isNotatedErr_iff (err : GoErr) (pkg : AstPackage) (fset : FileSet) :
    isNotatedErr err pkg fset = true ↔
      ∃ f, fset.file (ErrorPos err) = some f ∧
      ∃ gopf, pkg.files.lookup f.name = some gopf ∧
      ∃ off, strIndex (lineSlice f gopf (ErrorPos err)) slashSlash = some off ∧
        strContains ((lineSlice f gopf (ErrorPos err)).drop (off + 2)) compileErrorMarker
          = true := by
  cases hf : fset.file (ErrorPos err) with
  | none => simp [isNotatedErr, hf]
  | some f =>
    cases hg : pkg.files.lookup f.name with
    | none => simp [isNotatedErr, hf, hg]
    | some gopf =>
      cases hs : strIndex (lineSlice f gopf (ErrorPos err)) slashSlash with
      | none => simp [isNotatedErr, hf, hg, hs]
      | some off => simp [isNotatedErr, hf, hg, hs]

/-- C1 counterexample: with production flags 0b01, test flags 0b10 and the
`GopDeps` slot supplied, the hook writes 0b01 — the production flags only
— to the slot, not the claimed 0b11; the 0b11 total reaches only the
manifest write. -/
theorem afterLoad_gopDeps_counterexample :
    (afterLoad modW prodGoxW (some testGoxW) confGD none).gopDepsOut = some 1
    ∧ (afterLoad modW prodGoxW (some testGoxW) confGD none).savedFlags = some 3
    ∧ checkGopDeps prodGoxW = 1
    ∧ checkGopDeps testGoxW = 2
    ∧ confGD.gopDeps = true
    ∧ (afterLoad modW prodGoxW (some testGoxW) confGD none).gopDepsOut ≠ some 3 := by
  refine ⟨rfl, rfl, rfl, rfl, rfl, ?_⟩
  intro h
  rw [show (afterLoad modW prodGoxW (some testGoxW) confGD none).gopDepsOut = some 1
      from rfl] at h
  simp at h

/-- C1 amended: in the post-load hook, when the module is not the
toolchain's own and the caller supplied the dependency-flags output slot,
the slot receives exactly the production package's flags (the test
package's flags are not included); the bitwise-OR running total that also
includes the test package's flags is the value handed to the manifest
write, when that write happens. -/
theorem afterLoad_gopDeps_amended (mod : Module) (out : GoxPackage)
    (test : Option GoxPackage) (conf : Config) (saveErr : Option GoErr)
    (hpath : mod.path ≠ gopMod) (hgd : conf.gopDeps = true) :
    (afterLoad mod out test conf saveErr).gopDepsOut = some (checkGopDeps out)
    ∧ (∀ fl, (afterLoad mod out test conf saveErr).savedFlags = some fl →
        fl = (match test with
              | some t => checkGopDeps out ||| checkGopDeps t
              | none => checkGopDeps out)) := by
  unfold afterLoad
  rw [if_neg hpath, hgd]
  by_cases hu : (!conf.dontUpdateGoMod && mod.hasModfile) = true
  · rw [hu]
    simp only [Bool.true_or, if_true]
    cases test with
    | none =>
      by_cases hz : checkGopDeps out ≠ 0
      · rw [if_pos hz]
        exact ⟨rfl, fun fl h => by injection h with h; exact h.symm⟩
      · rw [if_neg hz]
        exact ⟨rfl, fun fl h => nomatch h⟩
    | some t =>
      by_cases hz : checkGopDeps out ||| checkGopDeps t ≠ 0
      · rw [if_pos hz]
        exact ⟨rfl, fun fl h => by injection h with h; exact h.symm⟩
      · rw [if_neg hz]
        exact ⟨rfl, fun fl h => nomatch h⟩
  · rw [Bool.not_eq_true] at hu
    rw [hu]
    simp

/-- C1 witness: the amended statement evaluated on the fixture — slot
0b01, manifest total 0b11. -/
theorem afterLoad_gopDeps_amended_witness :
    (afterLoad modW prodGoxW (some testGoxW) confGD none).gopDepsOut
        = some (checkGopDeps prodGoxW)
    ∧ (3 : Nat) = checkGopDeps prodGoxW ||| checkGopDeps testGoxW := by
  have h := afterLoad_gopDeps_amended modW prodGoxW (some testGoxW) confGD none
    (by intro h; simp [modW, gopMod] at h) rfl
  exact ⟨h.1, h.2 3 rfl⟩

/-- C9: the post-load hook does nothing when the resolved module is the
toolchain's own self-hosted project, and the manifest write happens only
when the module is not the toolchain's own, it has a manifest file,
`DontUpdateGoMod` is false, and the accumulated flag bitmask is non-zero;
the hook's only effects are the `GopDeps` slot write and that manifest
write. -/
theorem afterLoad_guard (mod : Module) (out : GoxPackage)
    (test : Option GoxPackage) (conf : Config) (saveErr : Option GoErr) :
    (mod.path = gopMod → afterLoad mod out test conf saveErr = ⟨none, none⟩)
    ∧ (∀ fl, (afterLoad mod out test conf saveErr).savedFlags = some fl →
        mod.path ≠ gopMod ∧ mod.hasModfile = true
          ∧ conf.dontUpdateGoMod = false ∧ fl ≠ 0) := by
  constructor
  · intro h
    unfold afterLoad
    rw [if_pos h]
  · intro fl h
    by_cases hpath : mod.path = gopMod
    · rw [show afterLoad mod out test conf saveErr = ⟨none, none⟩ from by
        unfold afterLoad; rw [if_pos hpath]] at h
      exact absurd h (by simp)
    · refine ⟨hpath, ?_⟩
      unfold afterLoad at h
      rw [if_neg hpath] at h
      by_cases hu : (!conf.dontUpdateGoMod && mod.hasModfile) = true
      · have hdu : conf.dontUpdateGoMod = false := by
          cases hd : conf.dontUpdateGoMod
          · rfl
          · rw [hd] at hu; simp at hu
        have hhm : mod.hasModfile = true := by
          cases hm : mod.hasModfile
          · rw [hm] at hu; simp at hu
          · rfl
        refine ⟨hhm, hdu, ?_⟩
        rw [hu] at h
        simp only [Bool.true_or, if_true] at h
        by_cases hz :
            (match test with
             | some t => checkGopDeps out ||| checkGopDeps t
             | none => checkGopDeps out) ≠ 0
        · rw [if_pos hz] at h
          injection h with h
          exact h ▸ hz
        · rw [if_neg hz] at h
          exact absurd h (by simp)
      · rw [Bool.not_eq_true] at hu
        rw [hu] at h
        simp only [Bool.false_or] at h
        by_cases hgd : conf.gopDeps = true
        · rw [hgd] at h
          simp only [if_true, Bool.false_eq_true, if_false] at h
          exact absurd h (by simp)
        · rw [Bool.not_eq_true] at hgd
          rw [hgd] at h
          simp only [Bool.false_eq_true, if_false] at h
          exact absurd h (by simp)

/-- C9 witness: the hook is inert on the toolchain's own module, and on
the fixture the manifest write carries the non-zero total 3 under a
manifest-bearing module with `DontUpdateGoMod` unset. -/
theorem afterLoad_guard_witness :
    afterLoad ⟨gopMod, true⟩ prodGoxW none confGD none = ⟨none, none⟩
    ∧ (modW.path ≠ gopMod ∧ modW.hasModfile = true
        ∧ confGD.dontUpdateGoMod = false ∧ (3 : Nat) ≠ 0) := by
  constructor
  · exact (afterLoad_guard ⟨gopMod, true⟩ prodGoxW none confGD none).1 rfl
  · exact (afterLoad_guard modW prodGoxW (some testGoxW) confGD none).2 3 rfl

/-- Helper: `afterLoad` never consults the result of
`Module.SaveWithGopMod`; the Go statement discards it. -/
theorem afterLoad_saveErr_irrel (mod : Module) (out : GoxPackage)
    (test : Option GoxPackage) (conf : Config) (saveErr : Option GoErr) :
    afterLoad mod out test conf saveErr = afterLoad mod out test conf none := rfl

/-- C4 counterexample: a load in which the manifest write runs (flag total
1 is handed to `SaveWithGopMod`) and the write fails, yet the load call
returns a nil error — the persistence failure never reaches the overall
error return. -/
theorem loadDir_save_failure_counterexample :
    (LoadDir (.ok [("main", prodAstW)]) compileW modW fsetW confPlain false
        (some GoErr.notFound)).afterLoadEff = some ⟨none, some 1⟩
    ∧ (LoadDir (.ok [("main", prodAstW)]) compileW modW fsetW confPlain false
        (some GoErr.notFound)).err = none := ⟨rfl, rfl⟩

/-- C4 amended: a failure of the manifest persistence step is silently
discarded — `afterLoad` ignores the result of `Module.SaveWithGopMod`,
and the outcome of `LoadDir` (packages, error return and effects alike)
is independent of whether the persistence step fails. -/
theorem loadDir_save_failure_amended
    (parseRes : Except GoErr (List (String × AstPackage)))
    (compile : AstPackage → Except GoErr GoxPackage)
    (mod : Module) (fset : FileSet) (conf : Config) (genTestPkg : Bool)
    (saveErr : Option GoErr) :
    LoadDir parseRes compile mod fset conf genTestPkg saveErr
      = LoadDir parseRes compile mod fset conf genTestPkg none := by
  unfold LoadDir
  cases parseRes with
  | error e => rfl
  | ok pkgs => simp only [loadDirPkgs, afterLoad_saveErr_irrel]

/-- Helper: a production package whose compile fails makes the
partitioning loop return at once, the error reconciled exactly when
`Config.IgnoreNotatedError` is set, and `LoadDir` then returns nil
packages and does not run the hook — whatever packages follow. -/
theorem loadDir_prod_error (name : String) (pkg : AstPackage)
    (rest : List (String × AstPackage))
    (compile : AstPackage → Except GoErr GoxPackage)
    (mod : Module) (fset : FileSet) (conf : Config) (genTestPkg : Bool)
    (saveErr : Option GoErr) (e : GoErr)
    (h1 : hasSuffix name "_test" = false) (h2 : pkg.files.length ≠ 0)
    (h3 : compile pkg = .error e) :
    LoadDir (.ok ((name, pkg) :: rest)) compile mod fset conf genTestPkg saveErr
      = ⟨none, none,
         some (if conf.ignoreNotatedError then ignNotatedErrs e pkg fset else e),
         none⟩ := by
  have hloop : loadDirLoop compile fset conf ((name, pkg) :: rest) none none
      = .early (if conf.ignoreNotatedError then ignNotatedErrs e pkg fset else e) := by
    conv_lhs => rw [loadDirLoop]
    rw [h1, h3, if_neg h2]
    rfl
  show loadDirPkgs ((name, pkg) :: rest) compile mod fset conf genTestPkg saveErr = _
  unfold loadDirPkgs
  rw [if_neg (by simp : ¬((name, pkg) :: rest).length = 0), hloop]

/-- Helper: when the loop completes with a compiled production package and
a discovered test package, and the requested test compile fails, `LoadDir`
returns the production package together with the raw test error, a nil
test package, and the hook runs with a nil test argument. -/
theorem loadDir_test_error (pkgs : List (String × AstPackage))
    (compile : AstPackage → Except GoErr GoxPackage)
    (mod : Module) (fset : FileSet) (conf : Config) (saveErr : Option GoErr)
    (o : GoxPackage) (pt : AstPackage) (e : GoErr)
    (h : loadDirLoop compile fset conf pkgs none none = .done (some o) (some pt))
    (he : compile pt = .error e) :
    LoadDir (.ok pkgs) compile mod fset conf true saveErr
      = ⟨some o, none, some e, some (afterLoad mod o none conf saveErr)⟩ := by
  have hne : ¬pkgs.length = 0 := by
    intro hl
    rw [List.length_eq_zero] at hl
    subst hl
    simp [loadDirLoop] at h
  show loadDirPkgs pkgs compile mod fset conf true saveErr = _
  unfold loadDirPkgs
  rw [if_neg hne, h]
  simp only [he, if_true]

/-- C7: a production-package compile failure returns immediately (nil
packages, the reconciled error, no test compile attempted, no hook run),
whatever packages follow in iteration order; whereas once the production
compile has succeeded, a test-package compile failure is returned
together with the still non-nil production package. -/
theorem loadDir_prod_abort_test_returned
    (compile : AstPackage → Except GoErr GoxPackage)
    (mod : Module) (fset : FileSet) (conf : Config) (saveErr : Option GoErr) :
    (∀ (name : String) (pkg : AstPackage) (rest : List (String × AstPackage))
        (genTestPkg : Bool) (e : GoErr),
        hasSuffix name "_test" = false → pkg.files.length ≠ 0 →
        compile pkg = .error e →
        LoadDir (.ok ((name, pkg) :: rest)) compile mod fset conf genTestPkg saveErr
          = ⟨none, none,
             some (if conf.ignoreNotatedError then ignNotatedErrs e pkg fset else e),
             none⟩)
    ∧ (∀ pkgs o pt e2,
        loadDirLoop compile fset conf pkgs none none = .done (some o) (some pt) →
        compile pt = .error e2 →
        LoadDir (.ok pkgs) compile mod fset conf true saveErr
          = ⟨some o, none, some e2, some (afterLoad mod o none conf saveErr)⟩) := by
  constructor
  · intro name pkg rest genTestPkg e h1 h2 h3
    exact loadDir_prod_error name pkg rest compile mod fset conf genTestPkg saveErr e
      h1 h2 h3
  · intro pkgs o pt e2 hloop he
    exact loadDir_test_error pkgs compile mod fset conf saveErr o pt e2 hloop he

/-- C7 witness: on the fixture, a failing production compile aborts the
whole load with nil packages and no hook even though a test package
follows, and a failing test compile after a successful production compile
returns the production package alongside the test error. -/
theorem loadDir_prod_abort_test_returned_witness :
    LoadDir (.ok [("main", prodAstW), ("extra_test", testAstW)]) compileFail
        modW fsetW confPlain true none
      = ⟨none, none, some eP, none⟩
    ∧ LoadDir (.ok [("main", prodAstW), ("main_test", testAstW)]) compileW
        modW fsetW confPlain true none
      = ⟨some prodGoxW, none, some eN,
         some (afterLoad modW prodGoxW none confPlain none)⟩ := by
  constructor
  · have h := (loadDir_prod_abort_test_returned compileFail modW fsetW confPlain
      none).1 "main" prodAstW [("extra_test", testAstW)] true eP
      rfl (by decide) rfl
    exact h.trans rfl
  · have h := (loadDir_prod_abort_test_returned compileW modW fsetW confPlain
      none).2 [("main", prodAstW), ("main_test", testAstW)] prodGoxW testAstW eN
      rfl rfl
    exact h

/-- C2 counterexample: with `IgnoreNotatedError` set, a notated error from
the test-package compile is returned raw by `LoadDir`; it is not passed
through `ignNotatedErrs`, which would have replaced it by the
`ErrIgnoreNotated` sentinel as it does for a production error. -/
theorem loadDir_test_error_not_reconciled_counterexample :
    (LoadDir (.ok [("main", prodAstW), ("main_test", testAstW)]) compileW
        modW fsetW confC2 true none).err = some eN
    ∧ confC2.ignoreNotatedError = true
    ∧ isNotatedErr eN testAstW fsetW = true
    ∧ ignNotatedErrs eN testAstW fsetW = .ignoreNotated
    ∧ (LoadDir (.ok [("main", prodAstW), ("main_test", testAstW)]) compileW
        modW fsetW confC2 true none).err ≠ some (ignNotatedErrs eN testAstW fsetW) := by
  refine ⟨rfl, rfl, rfl, rfl, ?_⟩
  intro h
  rw [show (LoadDir (.ok [("main", prodAstW), ("main_test", testAstW)]) compileW
      modW fsetW confC2 true none).err = some eN from rfl,
    show ignNotatedErrs eN testAstW fsetW = .ignoreNotated from rfl] at h
  injection h with h
  exact nomatch h

/-- C2 amended: an error returned by compiling the test package is
returned verbatim by `LoadDir`; notated-error reconciliation
(`ignNotatedErrs`) is applied only to production-package compile errors,
regardless of `IgnoreNotatedError`. -/
theorem loadDir_test_error_verbatim (pkgs : List (String × AstPackage))
    (compile : AstPackage → Except GoErr GoxPackage)
    (mod : Module) (fset : FileSet) (conf : Config) (genTestPkg : Bool)
    (saveErr : Option GoErr) (o : GoxPackage) (pt : AstPackage) (e : GoErr)
    (h : loadDirLoop compile fset conf pkgs none none = .done (some o) (some pt))
    (hg : genTestPkg = true) (he : compile pt = .error e) :
    (LoadDir (.ok pkgs) compile mod fset conf genTestPkg saveErr).err = some e := by
  subst hg
  rw [loadDir_test_error pkgs compile mod fset conf saveErr o pt e h he]

/-- C2 amended witness: the notated test error of the fixture comes back
verbatim even with `IgnoreNotatedError` set. -/
theorem loadDir_test_error_verbatim_witness :
    (LoadDir (.ok [("main", prodAstW), ("main_test", testAstW)]) compileW
        modW fsetW confC2 true none).err = some eN :=
  loadDir_test_error_verbatim [("main", prodAstW), ("main_test", testAstW)]
    compileW modW fsetW confC2 true none prodGoxW testAstW eN rfl rfl rfl

/-- C3 counterexample: the same two parsed packages — one non-empty
production package and one production package with zero files — make
`LoadDir` fail with `ErrMultiPackges` when the empty one is visited
second, while the opposite visiting order succeeds; the empty production
package is therefore not skipped silently regardless of order. -/
theorem loadDir_empty_pkg_counterexample :
    LoadDir (.ok [("main", prodAstW), ("zmain", emptyAstW)]) compileW modW fsetW
        confPlain false none
      = ⟨none, none, some .multiPackages, none⟩
    ∧ LoadDir (.ok [("zmain", emptyAstW), ("main", prodAstW)]) compileW modW fsetW
        confPlain false none
      = ⟨some prodGoxW, none, none, some (afterLoad modW prodGoxW none confPlain none)⟩
    ∧ emptyAstW.files.length = 0
    ∧ hasSuffix "zmain" "_test" = false := ⟨rfl, rfl, rfl, rfl⟩

/-- C3 amended: a parsed production package with zero constituent files is
silently skipped only while no production package has been compiled yet;
once a production package has compiled, any further production package —
empty or not — makes the loop return `ErrMultiPackges`, because the
multi-package check precedes the empty-package check. -/
theorem loadDirLoop_empty_skip
    (compile : AstPackage → Except GoErr GoxPackage)
    (fset : FileSet) (conf : Config) :
    (∀ (name : String) (pkg : AstPackage) (rest : List (String × AstPackage))
        (t : Option AstPackage),
        hasSuffix name "_test" = false → pkg.files.length = 0 →
        loadDirLoop compile fset conf ((name, pkg) :: rest) none t
          = loadDirLoop compile fset conf rest none t)
    ∧ (∀ (name : String) (pkg : AstPackage) (rest : List (String × AstPackage))
        (t : Option AstPackage) (o : GoxPackage),
        hasSuffix name "_test" = false →
        loadDirLoop compile fset conf ((name, pkg) :: rest) (some o) t
          = .early .multiPackages) := by
  constructor
  · intro name pkg rest t hn he
    conv_lhs => rw [loadDirLoop]
    rw [hn, if_pos he]
    rfl
  · intro name pkg rest t o hn
    conv_lhs => rw [loadDirLoop]
    rw [hn]
    rfl

/-- C3 amended witness: the empty fixture package is skipped at the head
of the list with no production package compiled yet, and triggers
`ErrMultiPackges` when one already is. -/
theorem loadDirLoop_empty_skip_witness :
    loadDirLoop compileW fsetW confPlain [("zmain", emptyAstW), ("main", prodAstW)]
        none none
      = loadDirLoop compileW fsetW confPlain [("main", prodAstW)] none none
    ∧ loadDirLoop compileW fsetW confPlain [("zmain", emptyAstW)] (some prodGoxW) none
      = .early .multiPackages := by
  constructor
  · exact (loadDirLoop_empty_skip compileW fsetW confPlain).1 "zmain" emptyAstW
      [("main", prodAstW)] none rfl rfl
  · exact (loadDirLoop_empty_skip compileW fsetW confPlain).2 "zmain" emptyAstW
      [] none prodGoxW rfl

/-- C8: `LoadFiles` fails with `ErrMultiPackges` (as the cause of the
wrapping frame) whenever parsing yields any number of packages other than
exactly one — including zero — and compiles the single package, its
compile result determining the returned package and error, only when
exactly one package results. -/
theorem loadFiles_single_package (pkgs : List (String × AstPackage))
    (compile : AstPackage → Except GoErr GoxPackage)
    (fset : FileSet) (conf : Config) :
    (pkgs.length ≠ 1 →
      LoadFiles (.ok pkgs) compile fset conf
        = ⟨none, some (.wrapped .multiPackages), none⟩)
    ∧ errCause (.wrapped .multiPackages) = .multiPackages
    ∧ (∀ (n : String) (p : AstPackage), pkgs = [(n, p)] →
      LoadFiles (.ok pkgs) compile fset conf
        = ⟨(compile p).toOption,
           (match compile p with
            | .ok _ => none
            | .error e =>
              some (if conf.ignoreNotatedError then ignNotatedErrs e p fset else e)),
           some (compile p).toOption⟩) := by
  refine ⟨?_, rfl, ?_⟩
  · intro h
    show loadFilesPkgs pkgs compile fset conf = _
    unfold loadFilesPkgs
    rw [if_pos h]
  · intro n p hp
    subst hp
    show loadFilesPkgs [(n, p)] compile fset conf = _
    unfold loadFilesPkgs
    rw [if_neg (by simp : ¬([(n, p)] : List (String × AstPackage)).length ≠ 1)]
    cases hc : compile p with
    | ok o => simp [hc, Except.toOption]
    | error e => simp [hc, Except.toOption]

/-- C8 witness: the empty file list (zero packages) fails with the wrapped
`ErrMultiPackges`, and a singleton parse result is compiled. -/
theorem loadFiles_single_package_witness :
    LoadFiles (.ok ([] : List (String × AstPackage))) compileW fsetW confPlain
      = ⟨none, some (.wrapped .multiPackages), none⟩
    ∧ LoadFiles (.ok [("main", prodAstW)]) compileW fsetW confPlain
      = ⟨some prodGoxW, none, some (some prodGoxW)⟩ := by
  constructor
  · exact (loadFiles_single_package [] compileW fsetW confPlain).1 (by decide)
  · have h := (loadFiles_single_package [("main", prodAstW)] compileW fsetW
      confPlain).2.2 "main" prodAstW rfl
    exact h.trans rfl

/-- C10: in `LoadFiles` the post-load hook is invoked unconditionally
after the compile attempt — even when the compile returned an error and
the output package is nil, the hook is called with that nil package —
unlike `LoadDir`, which returns before the hook on a production compile
failure. -/
theorem loadFiles_hook_unconditional
    (compile : AstPackage → Except GoErr GoxPackage)
    (mod : Module) (fset : FileSet) (conf : Config) (genTestPkg : Bool)
    (saveErr : Option GoErr) :
    (∀ (n : String) (p : AstPackage) (e : GoErr), compile p = .error e →
      (LoadFiles (.ok [(n, p)]) compile fset conf).afterLoadCall = some none
      ∧ (LoadFiles (.ok [(n, p)]) compile fset conf).out = none)
    ∧ (∀ (name : String) (pkg : AstPackage) (rest : List (String × AstPackage))
        (e : GoErr),
        hasSuffix name "_test" = false → pkg.files.length ≠ 0 →
        compile pkg = .error e →
        (LoadDir (.ok ((name, pkg) :: rest)) compile mod fset conf genTestPkg
            saveErr).afterLoadEff = none) := by
  constructor
  · intro n p e hc
    have h : LoadFiles (.ok [(n, p)]) compile fset conf
        = ⟨none,
           some (if conf.ignoreNotatedError then ignNotatedErrs e p fset else e),
           some none⟩ := by
      show loadFilesPkgs [(n, p)] compile fset conf = _
      unfold loadFilesPkgs
      rw [if_neg (by simp : ¬([(n, p)] : List (String × AstPackage)).length ≠ 1)]
      simp only [hc]
    rw [h]
    exact ⟨rfl, rfl⟩
  · intro name pkg rest e h1 h2 h3
    rw [loadDir_prod_error name pkg rest compile mod fset conf genTestPkg saveErr e
      h1 h2 h3]

/-- C10 witness: on the fixture, a failing `LoadFiles` compile still
invokes the hook, with a nil package; the same failing compile in
`LoadDir` returns with no hook invocation. -/
theorem loadFiles_hook_unconditional_witness :
    ((LoadFiles (.ok [("main", prodAstW)]) compileFail fsetW confPlain).afterLoadCall
        = some none
      ∧ (LoadFiles (.ok [("main", prodAstW)]) compileFail fsetW confPlain).out = none)
    ∧ (LoadDir (.ok [("main", prodAstW)]) compileFail modW fsetW confPlain false
        none).afterLoadEff = none := by
  constructor
  · exact (loadFiles_hook_unconditional compileFail modW fsetW confPlain false
      none).1 "main" prodAstW eP rfl
  · exact (loadFiles_hook_unconditional compileFail modW fsetW confPlain false
      none).2 "main" prodAstW [] eP rfl (by decide) rfl

end GopSpec
